import Mathlib

/-!
Verification development for the `imageapp` repository (Go).

The Go source is shallowly embedded: float32/float64 values are modelled as
rationals (ℚ), machine integers as ℤ/ℕ, Go slices as lists, fallible calls as
`Except`/`Option`, and the external collaborators (onnxruntime inference,
tokenizer library, postgres store, filesystem, websocket connections) as
explicit function parameters or oracle fields, matching the spec's external
interface boundary (spec §6).

One systematic deviation is unavoidable: `math.Sqrt` is irrational-valued, so
the square root computed inside `normalize` is passed as a parameter `norm`
constrained in theorems by its defining equation `norm * norm = sumSq v`.
Division by zero follows Lean's `q / 0 = 0` convention where Go float division
by zero would produce `NaN`/`Inf`; every theorem that depends on a division
states the non-zero-divisor side condition explicitly, and theorems that
refute error-reporting claims depend only on whether an error value is
returned, which is unaffected by this convention.
-/

namespace ImageApp

/-! ## Embedding engine (internal/services, `EmbeddingService`)

The Go service owns four reusable tensors (`inputIDs`, `attentionMask`,
`tokenTypeIDs` of shape [1,128] and the output of shape [1,128,384]) plus a
`sync.Mutex`; `EmbedTags` locks the mutex, tokenizes, copies the encoded ids
and mask into the shared tensors, runs inference, mean-pools and normalizes.
-/

/-- The three shared int64 input tensors of `EmbeddingService` (each a slice of
length 128, allocated zero-filled in `NewEmbeddingService`). -/
structure TensorState where
  inputIDs : List ℤ
  attentionMask : List ℤ
  tokenTypeIDs : List ℤ
  deriving Repr, DecidableEq

/-- Go's `copy(dst, src)`: copies `min (len dst) (len src)` elements into the
front of `dst`, leaving the tail of `dst` unchanged. -/
def copySlice (dst src : List ℤ) : List ℤ :=
  src.take dst.length ++ dst.drop src.length

/-- Models `models.Tokenizer.Encode(text, maxLen)`, input-ids half: a zero-filled
slice of length `maxLen` whose first `min (len ids) maxLen` entries are the
token ids produced by the external tokenizer library. -/
def encodeIDs (ids : List ℕ) (maxLen : ℕ) : List ℤ :=
  List.map Int.ofNat (List.take maxLen ids) ++
    List.replicate (maxLen - min ids.length maxLen) 0

/-- Models `models.Tokenizer.Encode(text, maxLen)`, attention-mask half: 1 at each
position that received a real token id, 0 (padding) elsewhere. -/
def encodeMask (ids : List ℕ) (maxLen : ℕ) : List ℤ :=
  List.replicate (min ids.length maxLen) 1 ++
    List.replicate (maxLen - min ids.length maxLen) 0

/-- The index positions the Go `meanPooling` loop accumulates: those
`i < seqLen` whose mask entry is non-zero (the unmasked, real-token
positions). -/
def unmaskedIdx (mask : List ℤ) (seqLen : ℕ) : List ℕ :=
  (List.range seqLen).filter (fun i => mask.getD i 0 ≠ 0)

/-- Models `services.meanPooling(output, mask, seqLen, dim)`: the Go function makes a
single pass over `i < seqLen`, skipping masked positions, accumulating
`embedding[j] += output[i*dim+j]` and counting the unmasked positions, then
divides every component by the count.  Component-wise that is exactly
`embedding[j] = (Σ_{i unmasked} output[i*dim+j]) / count`, which is how the
loop nest is rendered here (per-component formula instead of the transposed
accumulation order). -/
def meanPooling (output : List ℚ) (mask : List ℤ) (seqLen dim : ℕ) : List ℚ :=
  (List.range dim).map (fun j =>
    ((unmaskedIdx mask seqLen).foldl
        (fun acc i => acc + output.getD (i * dim + j) 0) 0) /
      ((unmaskedIdx mask seqLen).length : ℚ))

/-- Sum of squares of a vector; the Go `normalize` computes
`norm = float32(math.Sqrt(sum))` with `sum += val*val` over the vector. -/
def sumSq (v : List ℚ) : ℚ :=
  (v.map (fun x => x * x)).sum

/-- Models `services.normalize(v)`, which divides every component by the L2 norm.  The norm
itself is `math.Sqrt (sumSq v)`, which is irrational in general, so it is
taken as the parameter `norm`; theorems constrain it by
`norm * norm = sumSq v`. -/
def normalize (v : List ℚ) (norm : ℚ) : List ℚ :=
  v.map (fun x => x / norm)

/-- External collaborators of `EmbeddingService`: `tok` is the tokenizer
library call `tk.Encode(text, true)` (token ids for a text); `infer` is one
`session.Run()` of the onnx model on the current input tensors, producing the
flattened [1,128,384] `last_hidden_state` (or `none` for an inference error);
`norm` is the float square root `float32(math.Sqrt ·)` applied to the sum of
squares of a vector.  Fixing `tok` and `infer` corresponds to fixing the
tokenizer file and the model weights. -/
structure EmbedEnv where
  tok : String → List ℕ
  infer : TensorState → Option (List ℚ)
  norm : List ℚ → ℚ

/-- The input-tensor state after `EmbedTags` has copied the freshly encoded
ids and mask into the service's shared buffers. -/
def loadTensors (st : TensorState) (ids mask : List ℤ) : TensorState :=
  TensorState.mk (copySlice st.inputIDs ids) (copySlice st.attentionMask mask)
    st.tokenTypeIDs

/-- The token ids the tokenizer library produces for an `EmbedTags` call:
the Go method first joins the tags with single spaces
(`strings.Join(tags, " ")`). -/
def encTokens (env : EmbedEnv) (tags : List String) : List ℕ :=
  env.tok (String.intercalate " " tags)

/-- The encoded input-ids slice of an `EmbedTags` call
(`tokenizer.Encode(text, 128)`, first return). -/
def encIDs (env : EmbedEnv) (tags : List String) : List ℤ :=
  encodeIDs (encTokens env tags) 128

/-- The encoded attention mask of an `EmbedTags` call
(`tokenizer.Encode(text, 128)`, second return). -/
def encMask (env : EmbedEnv) (tags : List String) : List ℤ :=
  encodeMask (encTokens env tags) 128

/-- The vector `EmbedTags` builds from a successful inference output:
mean-pool over the call's mask, then normalize by the L2 norm (the Go code
binds the pooled vector once and normalizes it in place; here the pooled
vector is simply written twice). -/
def embedVec (env : EmbedEnv) (out : List ℚ) (mask : List ℤ) : List ℚ :=
  normalize (meanPooling out mask 128 384)
    (env.norm (meanPooling out mask 128 384))

/-- Models `EmbeddingService.EmbedTags(tags...)`.  Under the service mutex the Go
method joins the tags with spaces, encodes to (ids, mask) of length 128,
copies both into the shared tensors, runs inference, then mean-pools over the
mask and normalizes.  The returned pair is (tensor state after the call,
result); threading the state through successive calls models the
mutex-serialized execution.  `tokenizer.Encode` always returns a nil error in
the Go code, so the `tokenize:` error path is unreachable and does not appear;
an inference error surfaces as the `inference` error. -/
def EmbedTags (env : EmbedEnv) (st : TensorState) (tags : List String) :
    TensorState × Except String (List ℚ) :=
  match env.infer (loadTensors st (encIDs env tags) (encMask env tags)) with
  | none =>
      (loadTensors st (encIDs env tags) (encMask env tags),
        Except.error "inference")
  | some out =>
      (loadTensors st (encIDs env tags) (encMask env tags),
        Except.ok (embedVec env out (encMask env tags)))

/-- The tensor state built by `NewEmbeddingService`: all three input tensors
are freshly allocated zero slices of length 128 (`make([]int64, 128)`). -/
def initState : TensorState :=
  TensorState.mk (List.replicate 128 0) (List.replicate 128 0)
    (List.replicate 128 0)

/-- A mutex-serialized sequence of `EmbedTags` calls against one service:
each call runs atomically (the Go method holds `e.mu` for its whole body) and
hands the shared tensor state to the next. -/
def embedSeq (env : EmbedEnv) (st : TensorState) :
    List (List String) → List (Except String (List ℚ))
  | [] => []
  | tags :: rest =>
      (EmbedTags env st tags).2 :: embedSeq env (EmbedTags env st tags).1 rest

/-! ## Ingestion pipeline (internal/services, `ImageProcessor`)

`ImageProcessor` owns `jobs := make(chan ImageJob, 100)` and `maxWorkers`
worker goroutines.  `Queue` enqueues with `select`/`default` (drop on full);
each worker ranges over the channel, calls `processJob`, and on error writes
status `failed` while on success calls the `onComplete` callback.  Persisted
effects of one job are modelled as an event trace against the item's record;
external outcomes (thumbnail generation, db update) are oracle fields.
-/

/-- Models `services.ImageJob`. -/
structure ImageJob where
  fileID : ℤ
  filePath : String
  filename : String
  title : String
  tags : List String
  deriving Repr, DecidableEq

/-- One observable side effect a worker can issue against the store / its
caller.  `statusUpdate` is `updateStatus` (an `UPDATE images SET
thumbnail_status = $1`); `resultUpdate` is the single
`UPDATE images SET thumbnail_path, thumbnail_status = 'ready', embedding`;
`callback` is the `onComplete` invocation; `requeue` would be a re-enqueue of
the job (no line of the worker emits it — it exists so the theorems can state
its absence). -/
inductive Event where
  | statusUpdate (status : String)
  | resultUpdate (thumbPath : String) (embedding : List ℚ)
  | callback (job : ImageJob)
  | requeue (job : ImageJob)
  deriving Repr, DecidableEq

/-- The persisted fields of one `images` row that the pipeline touches. -/
structure ItemRecord where
  thumbnailPath : Option String
  thumbnailStatus : String
  embedding : List ℚ
  deriving Repr, DecidableEq

/-- Applying one issued update to the persisted record.  `updateStatus`
ignores (only logs) db errors; as in the spec's persistence abstraction,
issued updates are taken to land. -/
def applyEvent (r : ItemRecord) : Event → ItemRecord
  | Event.statusUpdate s => ItemRecord.mk r.thumbnailPath s r.embedding
  | Event.resultUpdate t v => ItemRecord.mk (some t) "ready" v
  | Event.callback _ => r
  | Event.requeue _ => r

def applyEvents (r : ItemRecord) (tr : List Event) : ItemRecord :=
  tr.foldl applyEvent r

/-- Oracle outcomes for one job execution: `thumbnail` is
`createThumbnail` (either the saved thumbnail path or an open/save error);
`eenv`/`tstate` are the shared embedding service the worker calls
`EmbedTags` on; `dbUpdateOk` is whether the single ready-update `Exec`
succeeds. -/
structure JobEnv where
  thumbnail : ImageJob → Except String String
  eenv : EmbedEnv
  tstate : TensorState
  dbUpdateOk : Bool

/-- Models `ImageProcessor.processJob`: set status `processing`, make the thumbnail,
embed the tags, then persist thumbnail path + status `ready` + embedding in
one update.  Returns the issued events and `some err` on failure (failures
abort before the ready-update event is issued; a failed `Exec` issues no
persisted change). -/
def processJob (env : JobEnv) (job : ImageJob) : List Event × Option String :=
  match env.thumbnail job with
  | Except.error e =>
      ([Event.statusUpdate "processing"], some ("thumbnail: " ++ e))
  | Except.ok thumbPath =>
      match (EmbedTags env.eenv env.tstate job.tags).2 with
      | Except.error e =>
          ([Event.statusUpdate "processing"], some ("embedding: " ++ e))
      | Except.ok emb =>
          if env.dbUpdateOk then
            ([Event.statusUpdate "processing",
              Event.resultUpdate thumbPath emb], none)
          else ([Event.statusUpdate "processing"], some "db update")

/-- The body of `ImageProcessor.worker` for one pulled job: on `processJob`
error write status `failed` (and never invoke the callback); on success invoke
`onComplete` once, after `processJob`'s persisted update. -/
def workerTrace (env : JobEnv) (job : ImageJob) : List Event :=
  match processJob env job with
  | (tr, some _) => tr ++ [Event.statusUpdate "failed"]
  | (tr, none) => tr ++ [Event.callback job]

/-- Capacity `make(chan ImageJob, 100)` in `NewImageProcessor`. -/
def queueCapacity : ℕ := 100

/-- Result of `ImageProcessor.Queue`'s `select`: the job went into the
channel buffer, or the `default` branch fired (buffer full, job dropped,
warning logged). -/
inductive QueueOutcome where
  | accepted
  | droppedCapacity
  deriving Repr, DecidableEq

/-- Models `ImageProcessor.Queue(job)`: non-blocking send on the buffered jobs
channel; with the buffer `buf` holding the queued-but-not-yet-pulled jobs, the
send succeeds exactly when the buffer has spare room, else the `default`
branch drops the job. -/
def enqueueJob (buf : List ImageJob) (job : ImageJob) :
    List ImageJob × QueueOutcome :=
  if buf.length < queueCapacity then (buf ++ [job], QueueOutcome.accepted)
  else (buf, QueueOutcome.droppedCapacity)

/-! ## Notification hub (backend/internal/ws/hub.go)

The hub goroutine (`Run`) serializes register/unregister/broadcast/shutdown.
A subscriber's outbound buffer is `send := make(chan []byte, 256)`.
-/

/-- Models `ws.Client`: a subscriber with its bounded outbound buffer.  `sendCap` is
the buffer capacity (256 in `HandleWebSocket`), `closed` records
`close(client.send)`. -/
structure Subscriber where
  cid : ℕ
  send : List String
  sendCap : ℕ
  closed : Bool
  deriving Repr, DecidableEq

/-- Buffer capacity: `HandleWebSocket` creates each client with `make(chan []byte, 256)`. -/
def clientSendCap : ℕ := 256

/-- The broadcast fan-out loop of `Hub.Run`: for every current subscriber a
non-blocking send of the marshalled message; on success the message joins the
subscriber's buffer, on a full buffer the subscriber's channel is closed and
it is deleted from the membership map.  Returns (remaining membership,
evicted subscribers). -/
def broadcastStep (data : String) : List Subscriber →
    List Subscriber × List Subscriber
  | [] => ([], [])
  | c :: rest =>
      let r := broadcastStep data rest
      if c.send.length < c.sendCap then
        (Subscriber.mk c.cid (c.send ++ [data]) c.sendCap c.closed :: r.1, r.2)
      else
        (r.1, Subscriber.mk c.cid c.send c.sendCap true :: r.2)

/-- Hub state as far as `Broadcast`/`Shutdown` observe it: the membership map
and whether the `done` channel has been closed. -/
structure HubState where
  clients : List Subscriber
  doneClosed : Bool
  deriving Repr, DecidableEq

/-- Models `Hub.Shutdown`, which is exactly `close(h.done)`.  Closing an already-closed Go
channel panics at runtime; the panic is modelled as the `Except.error`. -/
def hubShutdown (h : HubState) : Except String HubState :=
  if h.doneClosed then Except.error "panic: close of closed channel"
  else Except.ok (HubState.mk h.clients true)

/-- Models `Hub.Broadcast(msg)`: a `select` between sending on the unbuffered
`h.broadcast` channel and receiving from `h.done`.  Once `done` is closed
(and `Run` has returned, so nobody receives on `h.broadcast`), the `done`
branch is taken: the call returns immediately and the message is dropped.
Before shutdown the message is handed to the `Run` loop, which fans it out.
The Bool reports whether the message was delivered to the fan-out. -/
def hubBroadcast (h : HubState) (data : String) :
    Except String (HubState × Bool) :=
  if h.doneClosed then Except.ok (h, false)
  else Except.ok (HubState.mk (broadcastStep data h.clients).1 false, true)

/-! ## Retrieval engine (internal/handlers, `FeedHandler`)

The Go handler reads `cursor`, `filter`, `limit` query parameters; the db
queries are modelled against a list of stored `images` rows, with timestamps
as integers and the store's cosine-similarity primitive
(`1 - (embedding <=> $1)`) as a function parameter. -/

/-- One row of the `images` table, the fields the feed queries touch. -/
structure StoredImage where
  id : ℤ
  title : String
  tags : List String
  imageURL : String
  thumbnailPath : Option String
  thumbnailStatus : String
  embedding : List ℚ
  createdAt : ℤ
  deriving Repr, DecidableEq

/-- The limit computation in `FeedHandler.Feed`: start from the default 20
and overwrite only when the `limit` parameter parses (`strconv.Atoi` with nil
error) to a value `l` with `0 < l && l <= 50`.  The argument is the parse
outcome: `none` for an absent or malformed parameter (both leave the
default), `some l` for a parameter that parsed to `l`. -/
def effectiveLimit (parsed : Option ℤ) : ℤ :=
  match parsed with
  | some l => if 0 < l ∧ l ≤ 50 then l else 20
  | none => 20

/-- Whether a row passes the plain-mode WHERE clause:
`thumbnail_status = 'ready'` plus, when a cursor was supplied,
`created_at < cursor`. -/
def plainEligible (cursor : Option ℤ) (it : StoredImage) : Bool :=
  (it.thumbnailStatus == "ready") &&
    (match cursor with
     | some c => decide (it.createdAt < c)
     | none => true)

/-- Relation `ORDER BY created_at DESC` on rows. -/
def byCreatedDesc (a b : StoredImage) : Prop :=
  b.createdAt ≤ a.createdAt

instance : DecidableRel byCreatedDesc := fun a b =>
  inferInstanceAs (Decidable (b.createdAt ≤ a.createdAt))

instance : IsTotal StoredImage byCreatedDesc :=
  ⟨fun a b => le_total b.createdAt a.createdAt⟩

instance : IsTrans StoredImage byCreatedDesc :=
  ⟨fun _ _ _ hab hbc => le_trans hbc hab⟩

/-- Models `FeedHandler.normalFeed`: rows with status `ready` (and `created_at <
cursor` when a cursor is supplied), ordered by `created_at DESC`, first
`limit` rows. -/
def normalFeed (db : List StoredImage) (cursor : Option ℤ) (limit : ℕ) :
    List StoredImage :=
  ((db.filter (plainEligible cursor)).insertionSort byCreatedDesc).take limit

/-- The `next_cursor` computation in `FeedHandler.Feed`: set only when the
page holds exactly `limit` items, to the `created_at` of the last item
(`items[len(items)-1].CreatedAt`); the empty string otherwise is `none`. -/
def feedNextCursor (items : List StoredImage) (limit : ℕ) : Option ℤ :=
  if items.length = limit then (items.getLast?).map (fun it => it.createdAt)
  else none

/-- The filtered-mode WHERE clause on a scored row:
`thumbnail_status = 'ready' AND 1 - (embedding <=> $1) > 0.3` plus, when a
cursor was supplied, `created_at < cursor`. -/
def scoredEligible (cursor : Option ℤ) (p : StoredImage × ℚ) : Bool :=
  (p.1.thumbnailStatus == "ready") && decide ((3 : ℚ) / 10 < p.2) &&
    (match cursor with
     | some c => decide (p.1.createdAt < c)
     | none => true)

/-- Relation `ORDER BY similarity DESC` on scored rows. -/
def byScoreDesc (a b : StoredImage × ℚ) : Prop :=
  b.2 ≤ a.2

instance : DecidableRel byScoreDesc := fun a b =>
  inferInstanceAs (Decidable (b.2 ≤ a.2))

instance : IsTotal (StoredImage × ℚ) byScoreDesc :=
  ⟨fun a b => le_total b.2 a.2⟩

instance : IsTrans (StoredImage × ℚ) byScoreDesc :=
  ⟨fun _ _ _ hab hbc => le_trans hbc hab⟩

/-- The similarity-query part of `FeedHandler.filteredFeed`: the store scores
every row with its cosine-similarity primitive (`sim`, the SQL expression
`1 - (embedding <=> $1)` — an external store primitive, spec §6
`query_similar`), keeps ready rows with score strictly above 0.3 (and
`created_at < cursor` when supplied), orders by score descending and returns
the first `limit`. -/
def filteredQuery (sim : List ℚ → List ℚ → ℚ) (db : List StoredImage)
    (filterVec : List ℚ) (cursor : Option ℤ) (limit : ℕ) :
    List (StoredImage × ℚ) :=
  (((db.map (fun it => (it, sim it.embedding filterVec))).filter
        (scoredEligible cursor)).insertionSort byScoreDesc).take limit

/-- Models `FeedHandler.filteredFeed`: first embed the filter string through the
embedding service (`h.embedder.EmbedTags(filter)` — a one-element variadic
call), propagating its error; then run the similarity query with the
resulting vector. -/
def filteredFeed (env : EmbedEnv) (st : TensorState)
    (sim : List ℚ → List ℚ → ℚ) (db : List StoredImage) (filter : String)
    (cursor : Option ℤ) (limit : ℕ) :
    Except String (List (StoredImage × ℚ)) :=
  match (EmbedTags env st [filter]).2 with
  | Except.error e => Except.error ("embed filter: " ++ e)
  | Except.ok fv => Except.ok (filteredQuery sim db fv cursor limit)

/-! ## Upload path (internal/handlers, `UploadHandler.processUpload`) -/

/-- The parts of the system state `processUpload` can change: the set of
checksums present in the `images` table (backing the duplicate check), the
files in the storage directory, the number of rows, and the jobs handed to
`ImageProcessor.Queue`. -/
structure UploadState where
  checksums : List String
  files : List String
  rows : ℕ
  queuedJobs : List ImageJob
  deriving Repr, DecidableEq

/-- External outcomes of one `processUpload` run: `dupQueryOk` — the
`SELECT EXISTS` itself succeeds; `writeOk` — `os.WriteFile` succeeds;
`insertResult` — the `INSERT ... RETURNING id, created_at` result. -/
structure UploadEnv where
  sha256 : List ℕ → String
  dupQueryOk : Bool
  writeOk : Bool
  insertResult : Option (ℤ × ℤ)

/-- Models `UploadHandler.processUpload(bytes, filename, mime, title, tags)`:
checksum, duplicate check (fails with `image already exists` before any
write), save to disk, insert the row (placeholder embedding, status
`pending`), removing the saved file again when the insert fails, and finally
queue the processing job.  `newPath` is the timestamped storage path
`storageDir/<UnixNano>_<base filename>`. -/
def processUpload (env : UploadEnv) (st : UploadState) (bytes : List ℕ)
    (newPath : String) (filename title : String) (tags : List String) :
    UploadState × Except String (ℤ × ℤ) :=
  let checksum := env.sha256 bytes
  if ¬ env.dupQueryOk then (st, Except.error "database error")
  else if checksum ∈ st.checksums then
    (st, Except.error "image already exists")
  else if ¬ env.writeOk then (st, Except.error "save file")
  else
    let st2 := UploadState.mk st.checksums (st.files ++ [newPath]) st.rows
      st.queuedJobs
    match env.insertResult with
    | none =>
        (UploadState.mk st2.checksums (st2.files.erase newPath) st2.rows
          st2.queuedJobs,
         Except.error "db insert")
    | some r =>
        (UploadState.mk (st2.checksums ++ [checksum]) st2.files (st2.rows + 1)
          (st2.queuedJobs ++
            [ImageJob.mk r.1 newPath filename title tags]),
         Except.ok r)

/-! ## Helper lemmas -/

theorem sumSq_cons (x : ℚ) (v : List ℚ) : sumSq (x :: v) = x * x + sumSq v := by
  simp [sumSq]

theorem normalize_cons (x : ℚ) (v : List ℚ) (n : ℚ) :
    normalize (x :: v) n = x / n :: normalize v n := rfl

theorem sumSq_normalize (v : List ℚ) (n : ℚ) :
    sumSq (normalize v n) = sumSq v / (n * n) := by
  induction v with
  | nil => simp [sumSq, normalize]
  | cons x v ih =>
      rw [normalize_cons, sumSq_cons, sumSq_cons, ih, div_mul_div_comm,
        add_div]

/-- If `n` is a (nonzero) square root of the sum of squares of `v`, dividing
every component of `v` by `n` yields a vector of L2 norm exactly 1. -/
theorem sumSq_normalize_self (v : List ℚ) (n : ℚ) (hsq : n * n = sumSq v)
    (hn : n ≠ 0) : sumSq (normalize v n) = 1 := by
  rw [sumSq_normalize, ← hsq, div_self (mul_ne_zero hn hn)]

theorem copySlice_of_length_eq (dst src : List ℤ) (h : dst.length = src.length) :
    copySlice dst src = src := by
  unfold copySlice
  rw [h, List.take_length, ← h, List.drop_length, List.append_nil]

theorem encodeIDs_length (ids : List ℕ) (m : ℕ) :
    (encodeIDs ids m).length = m := by
  unfold encodeIDs
  rw [List.length_append, List.length_map, List.length_take,
    List.length_replicate]
  omega

theorem encodeMask_length (ids : List ℕ) (m : ℕ) :
    (encodeMask ids m).length = m := by
  unfold encodeMask
  rw [List.length_append, List.length_replicate, List.length_replicate]
  omega

/-- The reachable shape of the shared input tensors: both mutable buffers
keep length 128 and `tokenTypeIDs` is never written after allocation. -/
def GoodState (st : TensorState) : Prop :=
  st.inputIDs.length = 128 ∧ st.attentionMask.length = 128 ∧
    st.tokenTypeIDs = List.replicate 128 0

theorem goodState_init : GoodState initState := by
  refine ⟨?_, ?_, rfl⟩ <;> simp [initState]

theorem loadTensors_of_good (st : TensorState) (ids mask : List ℤ)
    (hst : GoodState st) (hi : ids.length = 128) (hm : mask.length = 128) :
    loadTensors st ids mask = TensorState.mk ids mask (List.replicate 128 0) := by
  unfold loadTensors
  rw [copySlice_of_length_eq _ _ (hst.1.trans hi.symm),
    copySlice_of_length_eq _ _ (hst.2.1.trans hm.symm), hst.2.2]

/-- The result of one call to `EmbedTags` against an already-initialized
service at state `st`: the returned tokenizer-independent value and its state. -/
def embedOnce (env : EmbedEnv) (tags : List String) :
    Except String (List ℚ) :=
  (EmbedTags env initState tags).2

/-- From any reachable tensor state, `EmbedTags` overwrites both mutable
buffers entirely before inference, so its result coincides with the result
from the freshly-allocated state, and the post state is reachable again. -/
theorem embedTags_of_good (env : EmbedEnv) (st : TensorState)
    (tags : List String) (hst : GoodState st) :
    (EmbedTags env st tags).2 = embedOnce env tags ∧
      GoodState (EmbedTags env st tags).1 := by
  have hload : ∀ st2 : TensorState, GoodState st2 →
      loadTensors st2 (encIDs env tags) (encMask env tags) =
      TensorState.mk (encIDs env tags) (encMask env tags)
        (List.replicate 128 0) := by
    intro st2 h2
    exact loadTensors_of_good _ _ _ h2 (encodeIDs_length _ _)
      (encodeMask_length _ _)
  have hgood2 : GoodState (TensorState.mk (encIDs env tags) (encMask env tags)
      (List.replicate 128 0)) :=
    ⟨encodeIDs_length _ _, encodeMask_length _ _, rfl⟩
  unfold embedOnce EmbedTags
  rw [hload st hst, hload initState goodState_init]
  cases env.infer (TensorState.mk (encIDs env tags) (encMask env tags)
      (List.replicate 128 0)) with
  | none => exact ⟨rfl, hgood2⟩
  | some out => exact ⟨rfl, hgood2⟩

/-- Along a serialized call sequence from a reachable state, every call
returns exactly what it would return as a lone call on a fresh service. -/
theorem embedSeq_eq_map (env : EmbedEnv) (st : TensorState)
    (calls : List (List String)) (hst : GoodState st) :
    embedSeq env st calls = calls.map (embedOnce env) := by
  induction calls generalizing st with
  | nil => rfl
  | cons tags rest ih =>
      have h := embedTags_of_good env st tags hst
      unfold embedSeq
      rw [h.1, ih _ h.2, List.map_cons]

theorem getD_map_of_lt {α β : Type} (f : α → β) (l : List α) (i : ℕ)
    (d : α) (e : β) (h : i < l.length) : (l.map f).getD i e = f (l.getD i d) := by
  induction l generalizing i with
  | nil => simp at h
  | cons x xs ih =>
      cases i with
      | zero => rfl
      | succ k => exact ih k (by simpa using h)

/-- When exactly one position `i` is unmasked, the Go mean-pooling loop
accumulates just that token's row and divides by a count of 1, returning the
token's per-position vector unchanged. -/
theorem meanPooling_single (out : List ℚ) (mask : List ℤ) (seqLen dim i : ℕ)
    (h : unmaskedIdx mask seqLen = [i]) :
    meanPooling out mask seqLen dim =
      (List.range dim).map (fun j => out.getD (i * dim + j) 0) := by
  unfold meanPooling
  rw [h]
  simp

/-- When the inference oracle succeeds on the loaded tensors, `EmbedTags`
returns the normalized mean-pooled output. -/
theorem embedTags_eq_of_infer (env : EmbedEnv) (st : TensorState)
    (tags : List String) (out : List ℚ)
    (h : env.infer (loadTensors st (encIDs env tags) (encMask env tags)) =
      some out) :
    (EmbedTags env st tags).2 =
      Except.ok (embedVec env out (encMask env tags)) := by
  unfold EmbedTags
  rw [h]

/-- When the inference oracle fails on the loaded tensors, `EmbedTags`
returns the `inference` error. -/
theorem embedTags_eq_of_infer_none (env : EmbedEnv) (st : TensorState)
    (tags : List String)
    (h : env.infer (loadTensors st (encIDs env tags) (encMask env tags)) =
      none) :
    (EmbedTags env st tags).2 = Except.error "inference" := by
  unfold EmbedTags
  rw [h]

theorem getD_range_map (d : ℚ) (l : List ℚ) (n : ℕ) :
    (List.range n).map (fun j => l.getD j d) =
      l.take n ++ List.replicate (n - l.length) d := by
  induction l generalizing n with
  | nil =>
      simp [List.getD]
  | cons x xs ih =>
      cases n with
      | zero => simp
      | succ k =>
          rw [List.range_succ_eq_map, List.map_cons, List.map_map]
          have : ((fun j => (x :: xs).getD j d) ∘ Nat.succ) =
              fun j => xs.getD j d := rfl
          rw [this, ih k]
          simp

theorem sumSq_append (a b : List ℚ) : sumSq (a ++ b) = sumSq a + sumSq b := by
  simp [sumSq]

theorem sumSq_replicate_zero (n : ℕ) : sumSq (List.replicate n 0) = 0 := by
  simp [sumSq]

/-! ## Shared spec-style eviction/delivery helpers for the hub -/

/-- A delivered copy: the subscriber with the broadcast data appended to its
outbound buffer. -/
def pushMsg (data : String) (c : Subscriber) : Subscriber :=
  Subscriber.mk c.cid (c.send ++ [data]) c.sendCap c.closed

/-- An evicted subscriber: its outbound channel closed. -/
def closeSub (c : Subscriber) : Subscriber :=
  Subscriber.mk c.cid c.send c.sendCap true

/-- Whether the non-blocking send into the subscriber's bounded buffer can
succeed. -/
def hasRoom (c : Subscriber) : Bool :=
  decide (c.send.length < c.sendCap)

theorem broadcastStep_spec (data : String) (clients : List Subscriber) :
    (broadcastStep data clients).1 =
      (clients.filter hasRoom).map (pushMsg data) ∧
    (broadcastStep data clients).2 =
      (clients.filter (fun c => ! hasRoom c)).map closeSub := by
  induction clients with
  | nil => exact ⟨rfl, rfl⟩
  | cons c rest ih =>
      by_cases h : c.send.length < c.sendCap
      · simp [broadcastStep, hasRoom, h, ih.1, ih.2, pushMsg]
      · simp [broadcastStep, hasRoom, h, ih.1, ih.2, closeSub]

/-! ## Claim theorems -/

/-- C3: `ImageProcessor.Queue` never blocks; at capacity the job is dropped
with the capacity-exceeded outcome and the queued jobs are unchanged; with
spare capacity the job is accepted (appended behind the already-queued
jobs). -/
theorem C3_enqueue_drop_on_full (buf : List ImageJob) (job : ImageJob) :
    (queueCapacity ≤ buf.length →
       enqueueJob buf job = (buf, QueueOutcome.droppedCapacity)) ∧
    (buf.length < queueCapacity →
       enqueueJob buf job = (buf ++ [job], QueueOutcome.accepted)) := by
  constructor
  · intro h
    unfold enqueueJob
    rw [if_neg (by omega)]
  · intro h
    unfold enqueueJob
    rw [if_pos h]

def wJob0 : ImageJob := ImageJob.mk 1 "p" "f" "t" ["tag"]

theorem C3_witness :
    (queueCapacity ≤ (List.replicate 100 wJob0).length ∧
      enqueueJob (List.replicate 100 wJob0) wJob0 =
        (List.replicate 100 wJob0, QueueOutcome.droppedCapacity)) ∧
    (([] : List ImageJob).length < queueCapacity ∧
      enqueueJob [] wJob0 = ([wJob0], QueueOutcome.accepted)) :=
  ⟨⟨by simp [queueCapacity],
    (C3_enqueue_drop_on_full (List.replicate 100 wJob0) wJob0).1
      (by simp [queueCapacity])⟩,
   ⟨by simp [queueCapacity],
    (C3_enqueue_drop_on_full [] wJob0).2 (by simp [queueCapacity])⟩⟩

def subA : Subscriber := Subscriber.mk 1 [] clientSendCap false

def subB : Subscriber := Subscriber.mk 2 (List.replicate 256 "old")
  clientSendCap false

def subC : Subscriber := Subscriber.mk 3 [] clientSendCap false

set_option maxRecDepth 4000 in
/-- C4: one hub broadcast delivers the message (appended to the outbound
buffer) to exactly the subscribers with spare buffer room, and closes and
evicts exactly the full-buffer subscribers; concretely, with 3 subscribers of
which only the second is full, the remaining membership is the other two with
the message appended, and the second is evicted closed. -/
theorem C4_broadcast_fanout (data : String) (clients : List Subscriber) :
    ((broadcastStep data clients).1 =
       (clients.filter hasRoom).map (pushMsg data) ∧
     (broadcastStep data clients).2 =
       (clients.filter (fun c => ! hasRoom c)).map closeSub) ∧
    ((broadcastStep "m" [subA, subB, subC]).1 =
       [pushMsg "m" subA, pushMsg "m" subC] ∧
     (broadcastStep "m" [subA, subB, subC]).2 = [closeSub subB] ∧
     (closeSub subB).closed = true) := by
  refine ⟨broadcastStep_spec data clients, ?_, ?_, rfl⟩
  · rfl
  · rfl

def hub0 : HubState := HubState.mk [subA, subB, subC] false

/-- C5 counterexample: `Hub.Shutdown` is `close(h.done)` with no guard, so
the second call closes an already-closed channel — a runtime panic, not a
no-op: after a first successful shutdown of `hub0`, a second `Shutdown`
panics. -/
theorem C5_counterexample :
    hubShutdown hub0 = Except.ok (HubState.mk [subA, subB, subC] true) ∧
    hubShutdown (HubState.mk [subA, subB, subC] true) =
      Except.error "panic: close of closed channel" := by
  exact ⟨rfl, rfl⟩

/-- C5 amended: a first `Shutdown` (done channel not yet closed) succeeds,
but `Shutdown` is not idempotent — a second call panics with
`close of closed channel`.  After shutdown, every `Broadcast` returns without
blocking and without panicking, and the message is dropped (`done` branch of
the `select`). -/
theorem C5_shutdown_behaviour (h : HubState) (data : String) :
    (h.doneClosed = false →
       hubShutdown h = Except.ok (HubState.mk h.clients true)) ∧
    (h.doneClosed = true →
       hubShutdown h = Except.error "panic: close of closed channel" ∧
       hubBroadcast h data = Except.ok (h, false)) := by
  constructor
  · intro hd
    unfold hubShutdown
    rw [if_neg (by rw [hd] ; exact Bool.false_ne_true)]
  · intro hd
    constructor
    · unfold hubShutdown
      rw [if_pos hd]
    · unfold hubBroadcast
      rw [if_pos hd]

theorem C5_witness :
    ((HubState.mk [subA] false).doneClosed = false ∧
      hubShutdown (HubState.mk [subA] false) =
        Except.ok (HubState.mk [subA] true)) ∧
    ((HubState.mk [subA] true).doneClosed = true ∧
      hubShutdown (HubState.mk [subA] true) =
        Except.error "panic: close of closed channel" ∧
      hubBroadcast (HubState.mk [subA] true) "m" =
        Except.ok (HubState.mk [subA] true, false)) :=
  ⟨⟨rfl, (C5_shutdown_behaviour (HubState.mk [subA] false) "m").1 rfl⟩,
   ⟨rfl, (C5_shutdown_behaviour (HubState.mk [subA] true) "m").2 rfl⟩⟩

/-- C8: the effective feed page limit is 20 when the `limit` parameter is
absent (or malformed, since both leave the default in place), and every
request is served with an effective limit in [1, 50]: a parsed value is used
only if it already lies in (0, 50], anything else keeps the default 20. -/
theorem C8_limit_clamped :
    effectiveLimit none = 20 ∧
    (∀ p : Option ℤ, 1 ≤ effectiveLimit p ∧ effectiveLimit p ≤ 50) := by
  refine ⟨rfl, ?_⟩
  intro p
  cases p with
  | none =>
      constructor
      · norm_num [effectiveLimit]
      · norm_num [effectiveLimit]
  | some l =>
      by_cases h : 0 < l ∧ l ≤ 50
      · constructor
        · simp only [effectiveLimit, if_pos h]
          omega
        · simp only [effectiveLimit, if_pos h]
          exact h.2
      · constructor
        · simp only [effectiveLimit, if_neg h]
          norm_num
        · simp only [effectiveLimit, if_neg h]
          norm_num

/-- C6: a plain-mode feed page contains only `ready` items, only items
strictly older than a supplied cursor, is ordered by creation time
descending, holds exactly `min limit #eligible` items, and (for the real,
clamped limits `1 ≤ limit`) carries a non-empty `next_cursor` exactly when
the page is full, the cursor being the creation timestamp of the last
returned item. -/
theorem C6_plain_feed (db : List StoredImage) (cursor : Option ℤ)
    (limit : ℕ) :
    (∀ it ∈ normalFeed db cursor limit, it.thumbnailStatus = "ready") ∧
    (∀ c : ℤ, cursor = some c →
       ∀ it ∈ normalFeed db cursor limit, it.createdAt < c) ∧
    List.Sorted byCreatedDesc (normalFeed db cursor limit) ∧
    (normalFeed db cursor limit).length =
      min limit (db.filter (plainEligible cursor)).length ∧
    (1 ≤ limit →
      ((feedNextCursor (normalFeed db cursor limit) limit).isSome ↔
        (normalFeed db cursor limit).length = limit)) ∧
    (∀ v : ℤ, feedNextCursor (normalFeed db cursor limit) limit = some v →
       (normalFeed db cursor limit).getLast?.map (fun it => it.createdAt) =
         some v) := by
  have hel : ∀ it ∈ normalFeed db cursor limit,
      plainEligible cursor it = true := by
    intro it hit
    unfold normalFeed at hit
    have h1 := List.mem_of_mem_take hit
    rw [List.mem_insertionSort] at h1
    exact (List.mem_filter.mp h1).2
  refine ⟨?_, ?_, ?_, ?_, ?_, ?_⟩
  · intro it hit
    have h := hel it hit
    unfold plainEligible at h
    rw [Bool.and_eq_true] at h
    exact eq_of_beq h.1
  · intro c hc it hit
    have h := hel it hit
    rw [hc] at h
    unfold plainEligible at h
    rw [Bool.and_eq_true] at h
    exact of_decide_eq_true h.2
  · unfold normalFeed
    exact (List.sorted_insertionSort byCreatedDesc _).sublist
      (List.take_sublist _ _)
  · unfold normalFeed
    rw [List.length_take, List.length_insertionSort]
  · intro hl
    unfold feedNextCursor
    by_cases h : (normalFeed db cursor limit).length = limit
    · rw [if_pos h]
      simp only [h, iff_true, Option.isSome_map']
      rw [List.getLast?_isSome]
      intro hnil
      rw [hnil] at h
      simp at h
      omega
    · rw [if_neg h]
      simp [h]
  · intro v hv
    unfold feedNextCursor at hv
    by_cases h : (normalFeed db cursor limit).length = limit
    · rw [if_pos h] at hv
      exact hv
    · rw [if_neg h] at hv
      exact absurd hv (by simp)

def imgA : StoredImage :=
  StoredImage.mk 1 "a" ["cat"] "/u/a" (some "ta") "ready" [] 5

def imgB : StoredImage :=
  StoredImage.mk 2 "b" ["dog"] "/u/b" (some "tb") "ready" [] 3

def imgC : StoredImage :=
  StoredImage.mk 3 "c" ["sun"] "/u/c" none "pending" [] 7

def wdb : List StoredImage := [imgB, imgC, imgA]

theorem C6_witness :
    ((some (6 : ℤ) : Option ℤ) = some 6 ∧
      imgA ∈ normalFeed wdb (some 6) 1 ∧
      1 ≤ 1) ∧
    imgA.thumbnailStatus = "ready" ∧
    imgA.createdAt < 6 ∧
    ((feedNextCursor (normalFeed wdb (some 6) 1) 1).isSome ↔
      (normalFeed wdb (some 6) 1).length = 1) ∧
    (normalFeed wdb (some 6) 1).getLast?.map (fun it => it.createdAt) =
      some 5 := by
  have hthm := C6_plain_feed wdb (some 6) 1
  have hmem : imgA ∈ normalFeed wdb (some 6) 1 := by decide
  refine ⟨⟨rfl, hmem, le_refl 1⟩, ?_, ?_, ?_, ?_⟩
  · exact hthm.1 imgA hmem
  · exact hthm.2.1 6 rfl imgA hmem
  · exact hthm.2.2.2.2.1 (le_refl 1)
  · exact hthm.2.2.2.2.2 5 (by decide)

/-- C7: the filtered-mode feed embeds the filter string through the embedding
service; when that succeeds with vector `fv` the result is exactly the store's
similarity query: every returned pair is a db row with its genuine similarity
score, is `ready`, scores strictly above 0.3 (so a 0.29-similarity item is
excluded), satisfies `created_at < cursor` when a cursor is supplied, the
page is ordered by similarity descending with exactly `min limit #eligible`
entries, and every eligible row (e.g. one scoring 0.31) is included whenever
the eligible set fits the limit. -/
theorem C7_filtered_feed (env : EmbedEnv) (st : TensorState)
    (sim : List ℚ → List ℚ → ℚ) (db : List StoredImage) (filter : String)
    (cursor : Option ℤ) (limit : ℕ) (fv : List ℚ)
    (hembed : (EmbedTags env st [filter]).2 = Except.ok fv) :
    filteredFeed env st sim db filter cursor limit =
      Except.ok (filteredQuery sim db fv cursor limit) ∧
    (∀ p ∈ filteredQuery sim db fv cursor limit,
       p.1 ∈ db ∧ p.2 = sim p.1.embedding fv ∧
       p.1.thumbnailStatus = "ready" ∧ (3 : ℚ) / 10 < p.2 ∧
       (∀ c : ℤ, cursor = some c → p.1.createdAt < c)) ∧
    List.Sorted byScoreDesc (filteredQuery sim db fv cursor limit) ∧
    (filteredQuery sim db fv cursor limit).length =
      min limit (((db.map (fun it => (it, sim it.embedding fv))).filter
        (scoredEligible cursor)).length) ∧
    ((((db.map (fun it => (it, sim it.embedding fv))).filter
        (scoredEligible cursor)).length ≤ limit) →
       ∀ it ∈ db, it.thumbnailStatus = "ready" →
         (3 : ℚ) / 10 < sim it.embedding fv →
         (∀ c : ℤ, cursor = some c → it.createdAt < c) →
         (it, sim it.embedding fv) ∈ filteredQuery sim db fv cursor limit) := by
  refine ⟨?_, ?_, ?_, ?_, ?_⟩
  · unfold filteredFeed
    rw [hembed]
  · intro p hp
    unfold filteredQuery at hp
    have h1 := List.mem_of_mem_take hp
    rw [List.mem_insertionSort] at h1
    have h2 := List.mem_filter.mp h1
    obtain ⟨it, hit, hpe⟩ := List.mem_map.mp h2.1
    have he := h2.2
    unfold scoredEligible at he
    rw [Bool.and_eq_true, Bool.and_eq_true] at he
    refine ⟨?_, ?_, ?_, ?_, ?_⟩
    · rw [← hpe] ; exact hit
    · rw [← hpe]
    · exact eq_of_beq he.1.1
    · exact of_decide_eq_true he.1.2
    · intro c hc
      rw [hc] at he
      exact of_decide_eq_true he.2
  · unfold filteredQuery
    exact (List.sorted_insertionSort byScoreDesc _).sublist
      (List.take_sublist _ _)
  · unfold filteredQuery
    rw [List.length_take, List.length_insertionSort]
  · intro hlen it hit hready hsc hcur
    unfold filteredQuery
    rw [List.take_of_length_le (by rw [List.length_insertionSort] ; exact hlen),
      List.mem_insertionSort, List.mem_filter]
    refine ⟨List.mem_map.mpr ⟨it, hit, rfl⟩, ?_⟩
    unfold scoredEligible
    rw [Bool.and_eq_true, Bool.and_eq_true]
    refine ⟨⟨beq_of_eq hready, decide_eq_true hsc⟩, ?_⟩
    cases cursor with
    | none => rfl
    | some c => exact decide_eq_true (hcur c rfl)

def wE7 : EmbedEnv :=
  EmbedEnv.mk (fun _ => []) (fun _ => some []) (fun _ => 0)

def wFv : List ℚ := embedVec wE7 [] (encMask wE7 ["cats"])

def wSim : List ℚ → List ℚ → ℚ := fun _ _ => 31 / 100

def wdb7 : List StoredImage := [imgA]

theorem C7_witness :
    ((EmbedTags wE7 initState ["cats"]).2 = Except.ok wFv ∧
      ((wdb7.map (fun it => (it, wSim it.embedding wFv))).filter
        (scoredEligible none)).length ≤ 20 ∧
      imgA ∈ wdb7 ∧ imgA.thumbnailStatus = "ready" ∧
      (3 : ℚ) / 10 < wSim imgA.embedding wFv) ∧
    (imgA, wSim imgA.embedding wFv) ∈ filteredQuery wSim wdb7 wFv none 20 ∧
    filteredFeed wE7 initState wSim wdb7 "cats" none 20 =
      Except.ok (filteredQuery wSim wdb7 wFv none 20) := by
  have hembed : (EmbedTags wE7 initState ["cats"]).2 = Except.ok wFv := rfl
  have hthm := C7_filtered_feed wE7 initState wSim wdb7 "cats" none 20 wFv
    hembed
  have hlen : ((wdb7.map (fun it => (it, wSim it.embedding wFv))).filter
      (scoredEligible none)).length ≤ 20 :=
    le_trans (List.length_filter_le _ _) (by norm_num [wdb7])
  have hsc : (3 : ℚ) / 10 < wSim imgA.embedding wFv := by norm_num [wSim]
  have hcur : ∀ c : ℤ, (none : Option ℤ) = some c → imgA.createdAt < c :=
    fun c h => Option.noConfusion h
  refine ⟨⟨hembed, hlen, by decide, rfl, hsc⟩, ?_, hthm.1⟩
  exact hthm.2.2.2.2 hlen imgA (by decide) rfl hsc hcur

def cexEnv : EmbedEnv :=
  EmbedEnv.mk (fun _ => []) (fun _ => some []) (fun _ => 1)

/-- C2 counterexample: a call whose token mask has zero unmasked positions
does NOT fail with an `InvalidInput` error — no such error exists anywhere in
the Go code.  With a tokenizer returning no tokens (all-padding mask) and a
successful inference, `EmbedTags` returns `ok`: `meanPooling` silently
divides by the zero count (in Go producing NaN float components) and the
vector is returned. -/
theorem C2_counterexample :
    (unmaskedIdx (encMask cexEnv [""]) 128).length = 0 ∧
    (EmbedTags cexEnv initState [""]).2.isOk = true := by
  constructor
  · decide
  · rfl

/-- C2 amended: `EmbedTags` never checks the unmasked count: whenever
inference succeeds it returns `ok` of the normalized mean-pooled vector, for
every mask — including a zero-unmasked mask (where the Go code divides by
zero instead of failing with `InvalidInput`).  The half of the claim about a
single unmasked position holds: the mean-pooling divisor is the unmasked
count (here 1, not the fixed length 128), so the pooled vector is exactly
that token's per-position vector and `EmbedTags` returns it normalized. -/
theorem C2_pooling_behaviour (env : EmbedEnv) (st : TensorState)
    (tags : List String) (out : List ℚ)
    (hinf : env.infer (loadTensors st (encIDs env tags) (encMask env tags)) =
      some out) :
    (EmbedTags env st tags).2 =
      Except.ok (embedVec env out (encMask env tags)) ∧
    (∀ i : ℕ, unmaskedIdx (encMask env tags) 128 = [i] →
       meanPooling out (encMask env tags) 128 384 =
         (List.range 384).map (fun j => out.getD (i * 384 + j) 0) ∧
       (EmbedTags env st tags).2 =
         Except.ok (normalize
           ((List.range 384).map (fun j => out.getD (i * 384 + j) 0))
           (env.norm
             ((List.range 384).map (fun j => out.getD (i * 384 + j) 0))))) := by
  have hok := embedTags_eq_of_infer env st tags out hinf
  refine ⟨hok, ?_⟩
  intro i hidx
  have hpool := meanPooling_single out (encMask env tags) 128 384 i hidx
  refine ⟨hpool, ?_⟩
  rw [hok]
  unfold embedVec
  rw [hpool]

def wE2 : EmbedEnv :=
  EmbedEnv.mk (fun _ => [7]) (fun _ => some [2]) (fun _ => 1)

theorem C2_witness :
    (wE2.infer (loadTensors initState (encIDs wE2 ["t"]) (encMask wE2 ["t"]))
        = some [2] ∧
      unmaskedIdx (encMask wE2 ["t"]) 128 = [0]) ∧
    meanPooling [2] (encMask wE2 ["t"]) 128 384 =
      (List.range 384).map (fun j => ([2] : List ℚ).getD (0 * 384 + j) 0) ∧
    (EmbedTags wE2 initState ["t"]).2 =
      Except.ok (normalize
        ((List.range 384).map (fun j => ([2] : List ℚ).getD (0 * 384 + j) 0))
        (wE2.norm
          ((List.range 384).map (fun j => ([2] : List ℚ).getD (0 * 384 + j) 0)))) := by
  have hidx : unmaskedIdx (encMask wE2 ["t"]) 128 = [0] := by decide
  have h := (C2_pooling_behaviour wE2 initState ["t"] [2] rfl).2 0 hidx
  exact ⟨⟨rfl, hidx⟩, h.1, h.2⟩

/-- C9: `EmbedTags` is deterministic.  A fixed `EmbedEnv` is a fixed
tokenizer file and fixed model weights (`session.Run` computes a function of
the input tensors).  Because the service serializes every call behind its
single mutex, any concurrent execution is some serialized call sequence
`calls` over the shared tensor state; both mutable input tensors are fully
overwritten at the start of each call and `tokenTypeIDs` is never written, so
any two calls in the sequence with the same tag text — regardless of the
other concurrent callers around and between them — return identical
vectors. -/
theorem C9_embed_deterministic (env : EmbedEnv) (calls : List (List String))
    (i j : ℕ) (hi : i < calls.length) (hj : j < calls.length)
    (heq : calls.getD i [] = calls.getD j []) :
    (embedSeq env initState calls).getD i (Except.error "") =
      (embedSeq env initState calls).getD j (Except.error "") := by
  rw [embedSeq_eq_map env initState calls goodState_init,
    getD_map_of_lt (embedOnce env) calls i [] _ hi,
    getD_map_of_lt (embedOnce env) calls j [] _ hj, heq]

def detCalls : List (List String) :=
  [["cat", "cute", "sleeping"], ["other", "tags"],
    ["cat", "cute", "sleeping"]]

theorem C9_witness :
    (0 < detCalls.length ∧ 2 < detCalls.length ∧
      detCalls.getD 0 [] = detCalls.getD 2 []) ∧
    (embedSeq cexEnv initState detCalls).getD 0 (Except.error "") =
      (embedSeq cexEnv initState detCalls).getD 2 (Except.error "") := by
  refine ⟨⟨by decide, by decide, rfl⟩, ?_⟩
  exact C9_embed_deterministic cexEnv detCalls 0 2 (by decide) (by decide) rfl

/-- The tensor state loaded for the worker's `EmbedTags(job.Tags...)` call. -/
def jobTensors (env : JobEnv) (job : ImageJob) : TensorState :=
  loadTensors env.tstate (encIDs env.eenv job.tags) (encMask env.eenv job.tags)

/-- The mean-pooled inference output of the worker's embedding call. -/
def jobPooled (env : JobEnv) (job : ImageJob) (out : List ℚ) : List ℚ :=
  meanPooling out (encMask env.eenv job.tags) 128 384

def isCallback : Event → Bool
  | Event.callback _ => true
  | _ => false

def isRequeue : Event → Bool
  | Event.requeue _ => true
  | _ => false

/-- C1: for one pulled job exactly one of two outcomes holds.  If the
thumbnail, the embedding inference, and the ready-update all succeed (with
the pooled vector non-degenerate, i.e. the float norm is a genuine non-zero
square root), the worker issues exactly the trace
status `processing`, then ONE update carrying thumbnail path + status
`ready` + the embedding, then the completion callback — so the persisted
record gets all three fields in a single update, the embedding has L2 norm
exactly 1 (in exact arithmetic; a fortiori within 1e-5), and the callback
runs exactly once, after the update.  If any of the three steps fails, the
trace is status `processing` then status `failed`: the final persisted status
is `failed`, no callback is invoked, and no requeue event exists. -/
theorem C1_job_outcome (env : JobEnv) (job : ImageJob) (r0 : ItemRecord) :
    (∀ tp : String, ∀ out : List ℚ,
       env.thumbnail job = Except.ok tp →
       env.eenv.infer (jobTensors env job) = some out →
       env.dbUpdateOk = true →
       env.eenv.norm (jobPooled env job out) *
         env.eenv.norm (jobPooled env job out) =
         sumSq (jobPooled env job out) →
       env.eenv.norm (jobPooled env job out) ≠ 0 →
       workerTrace env job =
         [Event.statusUpdate "processing",
          Event.resultUpdate tp (embedVec env.eenv out (encMask env.eenv job.tags)),
          Event.callback job] ∧
       (applyEvents r0 (workerTrace env job)).thumbnailStatus = "ready" ∧
       (applyEvents r0 (workerTrace env job)).thumbnailPath = some tp ∧
       (applyEvents r0 (workerTrace env job)).embedding =
         embedVec env.eenv out (encMask env.eenv job.tags) ∧
       sumSq (embedVec env.eenv out (encMask env.eenv job.tags)) = 1 ∧
       (workerTrace env job).countP isCallback = 1 ∧
       (workerTrace env job).countP isRequeue = 0) ∧
    (((env.thumbnail job).isOk = false ∨
        env.eenv.infer (jobTensors env job) = none ∨
        env.dbUpdateOk = false) →
       workerTrace env job =
         [Event.statusUpdate "processing", Event.statusUpdate "failed"] ∧
       (applyEvents r0 (workerTrace env job)).thumbnailStatus = "failed" ∧
       (workerTrace env job).countP isCallback = 0 ∧
       (workerTrace env job).countP isRequeue = 0) := by
  constructor
  · intro tp out h1 h2 h3 h4 h5
    have hem : (EmbedTags env.eenv env.tstate job.tags).2 =
        Except.ok (embedVec env.eenv out (encMask env.eenv job.tags)) :=
      embedTags_eq_of_infer env.eenv env.tstate job.tags out h2
    have hpj : processJob env job =
        ([Event.statusUpdate "processing",
          Event.resultUpdate tp (embedVec env.eenv out (encMask env.eenv job.tags))],
         none) := by
      unfold processJob
      rw [h1, hem, h3]
      rfl
    have htr : workerTrace env job =
        [Event.statusUpdate "processing",
         Event.resultUpdate tp (embedVec env.eenv out (encMask env.eenv job.tags)),
         Event.callback job] := by
      unfold workerTrace
      rw [hpj]
      rfl
    refine ⟨htr, ?_, ?_, ?_, ?_, ?_, ?_⟩
    · rw [htr] ; rfl
    · rw [htr] ; rfl
    · rw [htr] ; rfl
    · exact sumSq_normalize_self (jobPooled env job out) _ h4 h5
    · rw [htr] ; rfl
    · rw [htr] ; rfl
  · intro h
    have htr : workerTrace env job =
        [Event.statusUpdate "processing", Event.statusUpdate "failed"] := by
      rcases h with h | h | h
      · cases h1 : env.thumbnail job with
        | ok tp =>
            rw [h1] at h
            exact Bool.noConfusion h
        | error e =>
            unfold workerTrace processJob
            rw [h1]
            rfl
      · cases h1 : env.thumbnail job with
        | error e =>
            unfold workerTrace processJob
            rw [h1]
            rfl
        | ok tp =>
            have hem : (EmbedTags env.eenv env.tstate job.tags).2 =
                Except.error "inference" :=
              embedTags_eq_of_infer_none env.eenv env.tstate job.tags h
            unfold workerTrace processJob
            rw [h1, hem]
            rfl
      · cases h1 : env.thumbnail job with
        | error e =>
            unfold workerTrace processJob
            rw [h1]
            rfl
        | ok tp =>
            cases hem : (EmbedTags env.eenv env.tstate job.tags).2 with
            | error e =>
                unfold workerTrace processJob
                rw [h1, hem]
                rfl
            | ok emb =>
                unfold workerTrace processJob
                rw [h1, hem, h]
                rfl
    refine ⟨htr, ?_, ?_, ?_⟩
    · rw [htr] ; rfl
    · rw [htr] ; rfl
    · rw [htr] ; rfl

def wOut : List ℚ := [0, 0, 0, 0, 0, 3]

def wEenv : EmbedEnv :=
  EmbedEnv.mk (fun _ => [7]) (fun _ => some wOut) (fun _ => 3)

def wJobEnvOk : JobEnv :=
  JobEnv.mk (fun _ => Except.ok "thumb_1.jpg") wEenv initState true

def wJobEnvBad : JobEnv :=
  JobEnv.mk (fun _ => Except.error "open image") wEenv initState true

theorem wOut_pooled_sumSq : sumSq (jobPooled wJobEnvOk wJob0 wOut) = 9 := by
  have hidx : unmaskedIdx (encMask wEenv wJob0.tags) 128 = [0] := by decide
  have hpool : jobPooled wJobEnvOk wJob0 wOut =
      (List.range 384).map (fun j => wOut.getD (0 * 384 + j) 0) := by
    unfold jobPooled
    exact meanPooling_single wOut (encMask wEenv wJob0.tags) 128 384 0 hidx
  rw [hpool]
  simp only [Nat.zero_mul, Nat.zero_add]
  rw [getD_range_map 0 wOut 384,
    List.take_of_length_le (by norm_num [wOut]),
    sumSq_append, sumSq_replicate_zero]
  norm_num [sumSq, wOut]

theorem C1_witness :
    (wJobEnvOk.thumbnail wJob0 = Except.ok "thumb_1.jpg" ∧
      wJobEnvOk.eenv.infer (jobTensors wJobEnvOk wJob0) = some wOut ∧
      wJobEnvOk.dbUpdateOk = true ∧
      wJobEnvOk.eenv.norm (jobPooled wJobEnvOk wJob0 wOut) *
        wJobEnvOk.eenv.norm (jobPooled wJobEnvOk wJob0 wOut) =
        sumSq (jobPooled wJobEnvOk wJob0 wOut) ∧
      wJobEnvOk.eenv.norm (jobPooled wJobEnvOk wJob0 wOut) ≠ 0) ∧
    sumSq (embedVec wJobEnvOk.eenv wOut (encMask wJobEnvOk.eenv wJob0.tags)) = 1 ∧
    (applyEvents (ItemRecord.mk none "pending" [])
      (workerTrace wJobEnvOk wJob0)).thumbnailStatus = "ready" ∧
    (workerTrace wJobEnvOk wJob0).countP isCallback = 1 ∧
    ((wJobEnvBad.thumbnail wJob0).isOk = false ∧
      (applyEvents (ItemRecord.mk none "pending" [])
        (workerTrace wJobEnvBad wJob0)).thumbnailStatus = "failed" ∧
      (workerTrace wJobEnvBad wJob0).countP isCallback = 0) := by
  have h4 : wJobEnvOk.eenv.norm (jobPooled wJobEnvOk wJob0 wOut) *
      wJobEnvOk.eenv.norm (jobPooled wJobEnvOk wJob0 wOut) =
      sumSq (jobPooled wJobEnvOk wJob0 wOut) := by
    rw [wOut_pooled_sumSq]
    norm_num [wJobEnvOk, wEenv]
  have h5 : wJobEnvOk.eenv.norm (jobPooled wJobEnvOk wJob0 wOut) ≠ 0 := by
    norm_num [wJobEnvOk, wEenv]
  have hsucc := (C1_job_outcome wJobEnvOk wJob0
    (ItemRecord.mk none "pending" [])).1 "thumb_1.jpg" wOut rfl rfl rfl h4 h5
  have hfail := (C1_job_outcome wJobEnvBad wJob0
    (ItemRecord.mk none "pending" [])).2 (Or.inl rfl)
  exact ⟨⟨rfl, rfl, rfl, h4, h5⟩, hsucc.2.2.2.2.1, hsucc.2.1,
    hsucc.2.2.2.2.2.1, rfl, hfail.2.1, hfail.2.2.1⟩

/-- C10: `processUpload` runs the checksum duplicate check before any side
effect, so an upload whose bytes hash to an already-stored checksum fails
with `image already exists` and the whole state — files on disk, table rows,
checksums, queued jobs — is exactly what it was (nothing is ever written);
and when the insert fails after the file was written, the file is removed
again (`os.Remove`), so the failed upload leaves no new file and no new row
(for any storage path not already present, as the nanosecond-timestamped
names are fresh). -/
theorem C10_upload_no_partial_state (env : UploadEnv) (st : UploadState)
    (bytes : List ℕ) (newPath filename title : String) (tags : List String)
    (hfresh : newPath ∉ st.files) :
    (env.dupQueryOk = true → env.sha256 bytes ∈ st.checksums →
       processUpload env st bytes newPath filename title tags =
         (st, Except.error "image already exists")) ∧
    (env.dupQueryOk = true → env.sha256 bytes ∉ st.checksums →
       env.writeOk = true → env.insertResult = none →
       processUpload env st bytes newPath filename title tags =
         (st, Except.error "db insert")) := by
  obtain ⟨cs, fs, rows, qs⟩ := st
  constructor
  · intro hq hdup
    unfold processUpload
    rw [if_neg (by rw [hq] ; exact not_not_intro rfl), if_pos hdup]
  · intro hq hdup hw hins
    unfold processUpload
    rw [if_neg (by rw [hq] ; exact not_not_intro rfl), if_neg hdup,
      if_neg (by rw [hw] ; exact not_not_intro rfl), hins]
    have herase : ((fs ++ [newPath]).erase newPath) = fs := by
      rw [List.erase_append_right _ hfresh, List.erase_cons_head,
        List.append_nil]
    simp only [herase]

def wUpEnvDup : UploadEnv :=
  UploadEnv.mk (fun _ => "h1") true true (some (1, 2))

def wUpEnvIns : UploadEnv :=
  UploadEnv.mk (fun _ => "h2") true true none

def wUpSt : UploadState := UploadState.mk ["h1"] ["f1"] 1 []

theorem C10_witness :
    ("p2" ∉ wUpSt.files ∧ wUpEnvDup.dupQueryOk = true ∧
      wUpEnvDup.sha256 [9] ∈ wUpSt.checksums ∧
      wUpEnvIns.sha256 [9] ∉ wUpSt.checksums ∧
      wUpEnvIns.writeOk = true ∧ wUpEnvIns.insertResult = none) ∧
    processUpload wUpEnvDup wUpSt [9] "p2" "f" "t" ["tag"] =
      (wUpSt, Except.error "image already exists") ∧
    processUpload wUpEnvIns wUpSt [9] "p2" "f" "t" ["tag"] =
      (wUpSt, Except.error "db insert") := by
  have hfresh : "p2" ∉ wUpSt.files := by decide
  have hdup : wUpEnvDup.sha256 [9] ∈ wUpSt.checksums := by decide
  have hnodup : wUpEnvIns.sha256 [9] ∉ wUpSt.checksums := by decide
  refine ⟨⟨hfresh, rfl, hdup, hnodup, rfl, rfl⟩, ?_, ?_⟩
  · exact (C10_upload_no_partial_state wUpEnvDup wUpSt [9] "p2" "f" "t"
      ["tag"] hfresh).1 rfl hdup
  · exact (C10_upload_no_partial_state wUpEnvIns wUpSt [9] "p2" "f" "t"
      ["tag"] hfresh).2 rfl hnodup rfl rfl

end ImageApp
